import Mathlib

/-!
Verification of the RT-Audit schedulability checker
(`schedulability_checker.py`): a shallow embedding of the GFB and BCL
global-EDF schedulability tests and the combined verdict, with theorems
checking the specification's description of each computation.

Numbers are modelled as rationals; task dictionaries as association
lists in iteration order.
-/

/-- One task's rt-app parameters, as read from the JSON object:
`dl-runtime`, `dl-period`, an optional explicit `dl-deadline`, and the
`cpus` affinity list (absent key modelled as `[]`). -/
structure TaskParams where
  runtime : Option ℚ
  period : Option ℚ
  deadline : Option ℚ
  cpus : List ℕ
deriving DecidableEq

/-- Effective deadline, `task_params.get("dl-deadline", period)`: it is
the explicit `dl-deadline` when the key is present, else the task's
`dl-period` value (which may itself be absent). -/
def effDeadline (tp : TaskParams) : Option ℚ :=
  match tp.deadline with
  | some d => some d
  | none => tp.period

/-- The BCL validity filter of `check_bcl_schedulability`: a task is
skipped when runtime, period or effective deadline is missing, or when
period or effective deadline is zero; otherwise its
(runtime, period, deadline) triple is used. -/
def bclParams (tp : TaskParams) : Option (ℚ × ℚ × ℚ) :=
  match tp.runtime, tp.period, effDeadline tp with
  | some c, some p, some d => if p = 0 ∨ d = 0 then none else some (c, p, d)
  | _, _, _ => none

/-- The `beta_i` of an interfering task with runtime `ci` and period `pi`,
against the task under test's deadline `dk`:
`Ni = floor(dk / pi)`, `remaining = max(0, dk - Ni * pi)`,
`beta_i = (Ni * ci + min(ci, remaining)) / dk`. -/
def betaI (dk ci pii : ℚ) : ℚ :=
  let Ni : ℤ := ⌊dk / pii⌋
  ((Ni : ℚ) * ci + min ci (max 0 (dk - (Ni : ℚ) * pii))) / dk

/-- The `beta_details` map built by the inner loop of
`check_bcl_schedulability` for task `k` with deadline `dk`: every other
task passing the BCL validity filter contributes its `beta_i`, keyed by
name, in iteration order. -/
def bclBetaDetails (tasks : List (String × TaskParams)) (k : String) (dk : ℚ) :
    List (String × ℚ) :=
  tasks.filterMap fun other =>
    if other.1 = k then none
    else
      match bclParams other.2 with
      | some (oc, op, _) => some (other.1, betaI dk oc op)
      | none => none

/-- The per-task record stored in `task_results` by
`check_bcl_schedulability`. -/
structure BCLTaskResult where
  lambda_k : ℚ
  beta_sum : ℚ
  bound : ℚ
  condition1 : Bool
  condition2 : Bool
  is_schedulable : Bool
  beta_details : List (String × ℚ)
deriving DecidableEq

/-- The body of the outer loop of `check_bcl_schedulability` for a task
`k` that passed the validity filter with runtime `ck` and effective
deadline `dk`. -/
def bclCheckTask (tasks : List (String × TaskParams)) (m : ℕ) (k : String)
    (ck dk : ℚ) : BCLTaskResult :=
  let lambda_k := ck / dk
  let bd := bclBetaDetails tasks k dk
  let beta_sum := (bd.map fun e => min e.2 (1 - lambda_k)).sum
  let bound := (m : ℚ) * (1 - lambda_k)
  let condition1 := decide (beta_sum < bound)
  let condition2 := decide (beta_sum = bound) &&
    bd.any fun e => decide (0 < e.2) && decide (e.2 ≤ 1 - lambda_k)
  { lambda_k := lambda_k
    beta_sum := beta_sum
    bound := bound
    condition1 := condition1
    condition2 := condition2
    is_schedulable := condition1 || condition2
    beta_details := bd }

/-- The result of `check_bcl_schedulability(tasks, num_cpus)`: per-task results for
every task passing the validity filter, and `all_schedulable`, which is
true iff every analyzed task is schedulable. -/
def check_bcl_schedulability (tasks : List (String × TaskParams)) (m : ℕ) :
    Bool × List (String × BCLTaskResult) :=
  let task_results := tasks.filterMap fun t =>
    match bclParams t.2 with
    | some (c, _, d) => some (t.1, bclCheckTask tasks m t.1 c d)
    | none => none
  (task_results.all fun r => r.2.is_schedulable, task_results)

/-- The GFB validity filter and per-task utilization: a task with
missing runtime or period, or zero period, is skipped (with a printed
warning); otherwise its utilization is `runtime / period`. The deadline
is never read. -/
def gfbUtil (tp : TaskParams) : Option ℚ :=
  match tp.runtime, tp.period with
  | some c, some p => if p = 0 then none else some (c / p)
  | _, _ => none

/-- The `task_utilizations` list accumulated by
`check_gfb_schedulability`, in iteration order. -/
def gfbUtils (tasks : List (String × TaskParams)) : List ℚ :=
  tasks.filterMap fun t => gfbUtil t.2

/-- The numeric outcome of the GFB test. -/
structure GFBResult where
  total_utilization : ℚ
  max_utilization : ℚ
  bound : ℚ
  is_schedulable : Bool
deriving DecidableEq

/-- The GFB computation of `check_gfb_schedulability` on the collected
utilizations: `none` models the early return when no valid task was
found; otherwise total, max, `bound = m - (m - 1) * max` and the verdict
`total <= bound`. -/
def check_gfb (tasks : List (String × TaskParams)) (m : ℕ) : Option GFBResult :=
  match gfbUtils tasks with
  | [] => none
  | u :: us =>
    let total := (u :: us).sum
    let mx := us.foldl max u
    let bound := (m : ℚ) - ((m : ℚ) - 1) * mx
    some { total_utilization := total
           max_utilization := mx
           bound := bound
           is_schedulable := decide (total ≤ bound) }

/-- The four-way combined classification printed at the end of
`check_gfb_schedulability`. -/
inductive Verdict where
  | both
  | gfbOnly
  | bclOnly
  | inconclusive
deriving DecidableEq

/-- The `if / elif / elif / else` chain of the combined analysis. -/
def combinedVerdict (gfb bcl : Bool) : Verdict :=
  if gfb && bcl then .both
  else if gfb then .gfbOnly
  else if bcl then .bclOnly
  else .inconclusive

/-- Outcome of the whole `check_gfb_schedulability` run on an in-memory
taskset: the three early returns (no tasks, no derivable CPU count, no
valid task after filtering) and the full report. -/
inductive AnalysisOutcome where
  | noTasks
  | noCpus
  | noValidTasks
  | report (gfb : GFBResult) (bclAll : Bool)
      (bcl : List (String × BCLTaskResult)) (verdict : Verdict)
deriving DecidableEq

/-- The in-memory pipeline of `check_gfb_schedulability` after JSON
loading: derive `num_cpus` from the first task's affinity list, run the
GFB computation, then the BCL test, then combine the verdicts. -/
def analyze_taskset (tasks : List (String × TaskParams)) : AnalysisOutcome :=
  match tasks with
  | [] => .noTasks
  | t0 :: _ =>
    let m := t0.2.cpus.length
    if m = 0 then .noCpus
    else
      match check_gfb tasks m with
      | none => .noValidTasks
      | some g =>
        let bcl := check_bcl_schedulability tasks m
        .report g bcl.1 bcl.2 (combinedVerdict g.is_schedulable bcl.1)

/-! ### Helper lemmas -/

lemma foldl_max_init_le (a : ℚ) (l : List ℚ) : a ≤ l.foldl max a := by
  induction l generalizing a with
  | nil => exact le_refl a
  | cons x xs ih => exact le_trans (le_max_left a x) (ih (max a x))

lemma foldl_max_mem (a : ℚ) (l : List ℚ) : l.foldl max a = a ∨ l.foldl max a ∈ l := by
  induction l generalizing a with
  | nil => exact Or.inl rfl
  | cons x xs ih =>
    rcases ih (max a x) with h | h
    · rcases max_choice a x with hm | hm
      · exact Or.inl (by rw [List.foldl_cons, h, hm])
      · exact Or.inr (by rw [List.foldl_cons, h, hm]; exact List.mem_cons_self x xs)
    · exact Or.inr (List.mem_cons_of_mem x h)

lemma le_foldl_max {x : ℚ} (a : ℚ) {l : List ℚ} (hx : x ∈ l) : x ≤ l.foldl max a := by
  induction l generalizing a with
  | nil => cases hx
  | cons y ys ih =>
    rcases List.mem_cons.mp hx with rfl | h
    · exact le_trans (le_max_right a x) (foldl_max_init_le (max a x) ys)
    · exact ih (max a y) h

lemma filterMap_middle_none {α β : Type} (f : α → Option β) (pre post : List α)
    (x : α) (hx : f x = none) :
    (pre ++ x :: post).filterMap f = (pre ++ post).filterMap f := by
  simp [List.filterMap_append, List.filterMap_cons, hx]

lemma filterMap_congr_fun {α β : Type} {f g : α → Option β} (h : ∀ a, f a = g a)
    (l : List α) : l.filterMap f = l.filterMap g := by
  rw [funext h]

lemma nodupkeys_eq {l : List (String × TaskParams)} (h : (l.map Prod.fst).Nodup)
    {a : String} {b b' : TaskParams} (h1 : (a, b) ∈ l) (h2 : (a, b') ∈ l) :
    b = b' := by
  induction l with
  | nil => cases h1
  | cons x xs ih =>
    rw [List.map_cons, List.nodup_cons] at h
    rcases List.mem_cons.mp h1 with h1e | h1'
    · rcases List.mem_cons.mp h2 with h2e | h2'
      · rw [← h1e] at h2e
        injection h2e with _ hbb
        exact hbb.symm
      · exfalso
        exact h.1 (h1e ▸ (List.mem_map_of_mem Prod.fst h2' : a ∈ xs.map Prod.fst))
    · rcases List.mem_cons.mp h2 with h2e | h2'
      · exfalso
        exact h.1 (h2e ▸ (List.mem_map_of_mem Prod.fst h1' : a ∈ xs.map Prod.fst))
      · exact ih h.2 h1' h2'

lemma mem_check_bcl_of_valid {tasks : List (String × TaskParams)} {m : ℕ}
    {k : String} {tp : TaskParams} {c p d : ℚ}
    (hmem : (k, tp) ∈ tasks) (hv : bclParams tp = some (c, p, d)) :
    (k, bclCheckTask tasks m k c d) ∈ (check_bcl_schedulability tasks m).2 := by
  refine List.mem_filterMap.mpr ⟨(k, tp), hmem, ?_⟩
  simp [hv]

lemma mem_check_bcl_elim {tasks : List (String × TaskParams)} {m : ℕ}
    {r : String × BCLTaskResult} (hr : r ∈ (check_bcl_schedulability tasks m).2) :
    ∃ tp c p d, (r.1, tp) ∈ tasks ∧ bclParams tp = some (c, p, d) ∧
      r.2 = bclCheckTask tasks m r.1 c d := by
  obtain ⟨⟨n, tp⟩, hmem, hf⟩ := List.mem_filterMap.mp hr
  cases hv : bclParams tp with
  | none => rw [hv] at hf; cases hf
  | some trip =>
    obtain ⟨c, p, d⟩ := trip
    rw [hv] at hf
    cases hf
    exact ⟨tp, c, p, d, hmem, hv, rfl⟩

lemma mem_bclBetaDetails_elim {tasks : List (String × TaskParams)} {k : String}
    {dk : ℚ} {e : String × ℚ} (he : e ∈ bclBetaDetails tasks k dk) :
    e.1 ≠ k ∧ ∃ tp oc op od, (e.1, tp) ∈ tasks ∧ bclParams tp = some (oc, op, od) ∧
      e.2 = betaI dk oc op := by
  obtain ⟨⟨n, tp⟩, hmem, hf⟩ := List.mem_filterMap.mp he
  by_cases hnk : n = k
  · rw [if_pos hnk] at hf; cases hf
  · rw [if_neg hnk] at hf
    cases hv : bclParams tp with
    | none => rw [hv] at hf; cases hf
    | some trip =>
      obtain ⟨oc, op, od⟩ := trip
      rw [hv] at hf
      cases hf
      exact ⟨hnk, tp, oc, op, od, hmem, hv, rfl⟩

lemma check_bcl_fst_eq_all (tasks : List (String × TaskParams)) (m : ℕ) :
    (check_bcl_schedulability tasks m).1 =
      (check_bcl_schedulability tasks m).2.all fun r => r.2.is_schedulable := rfl

lemma gfbUtil_none_of_invalid {tp : TaskParams}
    (h : tp.runtime = none ∨ tp.period = none ∨ tp.period = some 0) :
    gfbUtil tp = none := by
  obtain ⟨r, p, dl, cp⟩ := tp
  simp only at h
  rcases h with h | h | h <;> subst h
  · cases p <;> simp [gfbUtil]
  · cases r <;> simp [gfbUtil]
  · cases r <;> simp [gfbUtil]

lemma bclParams_none_of_invalid {tp : TaskParams}
    (h : tp.runtime = none ∨ tp.period = none ∨ tp.period = some 0) :
    bclParams tp = none := by
  obtain ⟨r, p, dl, cp⟩ := tp
  simp only at h
  rcases h with h | h | h <;> subst h
  · cases p <;> cases dl <;> simp [bclParams, effDeadline]
  · cases r <;> cases dl <;> simp [bclParams, effDeadline]
  · cases r <;> cases dl <;> simp [bclParams, effDeadline]

lemma bclBetaDetails_drop {tp : TaskParams} (hb : bclParams tp = none)
    (pre post : List (String × TaskParams)) (n k : String) (dk : ℚ) :
    bclBetaDetails (pre ++ (n, tp) :: post) k dk = bclBetaDetails (pre ++ post) k dk := by
  unfold bclBetaDetails
  apply filterMap_middle_none
  by_cases h : n = k <;> simp [h, hb]

lemma bclCheckTask_drop {tp : TaskParams} (hb : bclParams tp = none)
    (pre post : List (String × TaskParams)) (n k : String) (m : ℕ) (ck dk : ℚ) :
    bclCheckTask (pre ++ (n, tp) :: post) m k ck dk
      = bclCheckTask (pre ++ post) m k ck dk := by
  simp only [bclCheckTask]
  rw [bclBetaDetails_drop hb]

lemma check_bcl_drop {tp : TaskParams} (hb : bclParams tp = none)
    (pre post : List (String × TaskParams)) (n : String) (m : ℕ) :
    check_bcl_schedulability (pre ++ (n, tp) :: post) m
      = check_bcl_schedulability (pre ++ post) m := by
  have hfun : ∀ t : String × TaskParams,
      (match bclParams t.2 with
       | some (c, _, d) => some (t.1, bclCheckTask (pre ++ (n, tp) :: post) m t.1 c d)
       | none => none)
      = (match bclParams t.2 with
         | some (c, _, d) => some (t.1, bclCheckTask (pre ++ post) m t.1 c d)
         | none => none) := by
    intro t
    cases hv : bclParams t.2 with
    | none => rfl
    | some trip =>
      obtain ⟨c, p, d⟩ := trip
      show some (t.1, bclCheckTask (pre ++ (n, tp) :: post) m t.1 c d)
        = some (t.1, bclCheckTask (pre ++ post) m t.1 c d)
      rw [bclCheckTask_drop hb]
  unfold check_bcl_schedulability
  rw [filterMap_congr_fun hfun, filterMap_middle_none _ _ _ _ (by simp [hb])]

lemma gfbUtils_drop {tp : TaskParams} (hg : gfbUtil tp = none)
    (pre post : List (String × TaskParams)) (n : String) :
    gfbUtils (pre ++ (n, tp) :: post) = gfbUtils (pre ++ post) :=
  filterMap_middle_none _ _ _ _ hg

lemma check_gfb_drop {tp : TaskParams} (hg : gfbUtil tp = none)
    (pre post : List (String × TaskParams)) (n : String) (m : ℕ) :
    check_gfb (pre ++ (n, tp) :: post) m = check_gfb (pre ++ post) m := by
  unfold check_gfb
  rw [gfbUtils_drop hg]

lemma check_bcl_cond1_all {tasks : List (String × TaskParams)} {m : ℕ}
    (h : ∀ r ∈ (check_bcl_schedulability tasks m).2, r.2.condition1 = true) :
    (check_bcl_schedulability tasks m).1 = true := by
  have hall : ∀ r ∈ (check_bcl_schedulability tasks m).2, r.2.is_schedulable = true := by
    intro r hr
    obtain ⟨tp, c, p, d, hmem, hv, hrr⟩ := mem_check_bcl_elim hr
    have h1 := h r hr
    rw [hrr] at h1 ⊢
    have hdef : (bclCheckTask tasks m r.1 c d).is_schedulable
        = ((bclCheckTask tasks m r.1 c d).condition1
            || (bclCheckTask tasks m r.1 c d).condition2) := rfl
    rw [hdef, h1, Bool.true_or]
  rw [check_bcl_fst_eq_all]
  exact List.all_eq_true.mpr hall

/-! ### Example tasksets used by the witnesses -/

def exA : TaskParams := ⟨some 1, some 4, none, [0, 1]⟩
def exB : TaskParams := ⟨some 2, some 6, none, [0, 1]⟩
def ex2 : List (String × TaskParams) := [("a", exA), ("b", exB)]

/-- A task with valid runtime and period but an explicit zero deadline. -/
def exBad : TaskParams := ⟨some 1, some 2, some 0, [0]⟩

/-- A plain valid task. -/
def exOk : TaskParams := ⟨some 1, some 4, none, [0]⟩

def exC6 : List (String × TaskParams) := [("bad", exBad), ("ok", exOk)]
def exC6r : List (String × TaskParams) := [("ok", exOk)]

/-- A task with zero period. -/
def exZero : TaskParams := ⟨some 1, some 0, none, [0]⟩

/-! ### Claim theorems -/

/-- Claim C1: for every taskset and every BCL-valid task `k`,
`check_bcl_schedulability` records for `k` the utilization
`lambda_k = runtime_k / deadline_k`; a beta-detail entry, for every
other BCL-valid task `i`, equal to
`(N_i * runtime_i + min(runtime_i, max(0, deadline_k - N_i * period_i))) / deadline_k`
with `N_i = floor(deadline_k / period_i)`; and `beta_sum` equal to the
sum of `min(beta_i, 1 - lambda_k)` over exactly those entries. -/
theorem bcl_per_task_formulas (tasks : List (String × TaskParams)) (m : ℕ)
    (k : String) (tp : TaskParams) (c p d : ℚ)
    (hmem : (k, tp) ∈ tasks) (hv : bclParams tp = some (c, p, d)) :
    ∃ r : BCLTaskResult, (k, r) ∈ (check_bcl_schedulability tasks m).2 ∧
      r.lambda_k = c / d ∧
      r.beta_details = tasks.filterMap (fun i =>
        if i.1 = k then none
        else
          match bclParams i.2 with
          | some (ci, pii, _) =>
            some (i.1,
              ((⌊d / pii⌋ : ℚ) * ci + min ci (max 0 (d - (⌊d / pii⌋ : ℚ) * pii))) / d)
          | none => none) ∧
      r.beta_sum = (r.beta_details.map fun e => min e.2 (1 - c / d)).sum :=
  ⟨bclCheckTask tasks m k c d, mem_check_bcl_of_valid hmem hv, rfl, rfl, rfl⟩

/-- Witness for C1 at a concrete two-task taskset. -/
theorem bcl_per_task_formulas_witness :
    ∃ r : BCLTaskResult, ("a", r) ∈ (check_bcl_schedulability ex2 2).2 ∧
      r.lambda_k = (1 : ℚ) / 4 ∧
      r.beta_details = ex2.filterMap (fun i =>
        if i.1 = "a" then none
        else
          match bclParams i.2 with
          | some (ci, pii, _) =>
            some (i.1,
              ((⌊(4 : ℚ) / pii⌋ : ℚ) * ci
                + min ci (max 0 (4 - (⌊(4 : ℚ) / pii⌋ : ℚ) * pii))) / 4)
          | none => none) ∧
      r.beta_sum = (r.beta_details.map fun e => min e.2 (1 - (1 : ℚ) / 4)).sum :=
  bcl_per_task_formulas ex2 2 "a" exA 1 4 4 (by simp [ex2])
    (by norm_num [bclParams, effDeadline, exA])

/-- Claim C2: for every BCL-valid task `k`, the recorded
`bound = m * (1 - lambda_k)`; `condition1` holds iff `beta_sum < bound`
strictly; `condition2` holds iff `beta_sum = bound` exactly and some
other valid task has `0 < beta_i <= 1 - lambda_k`; the task is marked
schedulable iff `condition1` or `condition2`; and the whole taskset is
BCL-schedulable iff every analyzed task is schedulable. -/
theorem bcl_conditions_and_overall (tasks : List (String × TaskParams)) (m : ℕ)
    (k : String) (tp : TaskParams) (c p d : ℚ)
    (hmem : (k, tp) ∈ tasks) (hv : bclParams tp = some (c, p, d)) :
    (∃ r : BCLTaskResult, (k, r) ∈ (check_bcl_schedulability tasks m).2 ∧
      r.bound = (m : ℚ) * (1 - c / d) ∧
      (r.condition1 = true ↔ r.beta_sum < r.bound) ∧
      (r.condition2 = true ↔ r.beta_sum = r.bound ∧
        ∃ e ∈ r.beta_details, 0 < e.2 ∧ e.2 ≤ 1 - c / d) ∧
      (r.is_schedulable = true ↔ (r.condition1 = true ∨ r.condition2 = true))) ∧
    ((check_bcl_schedulability tasks m).1 = true ↔
      ∀ r ∈ (check_bcl_schedulability tasks m).2, r.2.is_schedulable = true) := by
  constructor
  · refine ⟨bclCheckTask tasks m k c d, mem_check_bcl_of_valid hmem hv, rfl, ?_, ?_, ?_⟩
    · simp [bclCheckTask]
    · simp [bclCheckTask, List.any_eq_true, Bool.and_eq_true, decide_eq_true_eq]
    · simp [bclCheckTask, Bool.or_eq_true]
  · rw [check_bcl_fst_eq_all]
    exact List.all_eq_true

/-- Witness for C2 at a concrete two-task taskset. -/
theorem bcl_conditions_and_overall_witness :
    (∃ r : BCLTaskResult, ("b", r) ∈ (check_bcl_schedulability ex2 2).2 ∧
      r.bound = ((2 : ℕ) : ℚ) * (1 - (2 : ℚ) / 6) ∧
      (r.condition1 = true ↔ r.beta_sum < r.bound) ∧
      (r.condition2 = true ↔ r.beta_sum = r.bound ∧
        ∃ e ∈ r.beta_details, 0 < e.2 ∧ e.2 ≤ 1 - (2 : ℚ) / 6) ∧
      (r.is_schedulable = true ↔ (r.condition1 = true ∨ r.condition2 = true))) ∧
    ((check_bcl_schedulability ex2 2).1 = true ↔
      ∀ r ∈ (check_bcl_schedulability ex2 2).2, r.2.is_schedulable = true) :=
  bcl_conditions_and_overall ex2 2 "b" exB 2 6 6 (by simp [ex2])
    (by norm_num [bclParams, effDeadline, exB])

/-- Claim C3: with at least one valid task, the GFB analysis collects the
utilizations `runtime_i / period_i` of exactly the valid tasks, and
returns total = their sum, max = their maximum,
`bound = m - (m - 1) * max`, and schedulable iff `total <= bound`. -/
theorem gfb_computation (tasks : List (String × TaskParams)) (m : ℕ)
    (hne : gfbUtils tasks ≠ []) :
    gfbUtils tasks = tasks.filterMap (fun t =>
      match t.2.runtime, t.2.period with
      | some c, some p => if p = 0 then none else some (c / p)
      | _, _ => none) ∧
    ∃ r : GFBResult, check_gfb tasks m = some r ∧
      r.total_utilization = (gfbUtils tasks).sum ∧
      r.max_utilization ∈ gfbUtils tasks ∧
      (∀ u ∈ gfbUtils tasks, u ≤ r.max_utilization) ∧
      r.bound = (m : ℚ) - ((m : ℚ) - 1) * r.max_utilization ∧
      (r.is_schedulable = true ↔ r.total_utilization ≤ r.bound) := by
  refine ⟨rfl, ?_⟩
  cases h : gfbUtils tasks with
  | nil => exact absurd h hne
  | cons u us =>
    have hg : check_gfb tasks m = some
        { total_utilization := (u :: us).sum
          max_utilization := us.foldl max u
          bound := (m : ℚ) - ((m : ℚ) - 1) * us.foldl max u
          is_schedulable :=
            decide ((u :: us).sum ≤ (m : ℚ) - ((m : ℚ) - 1) * us.foldl max u) } := by
      unfold check_gfb
      rw [h]
    refine ⟨_, hg, rfl, ?_, ?_, rfl, by simp⟩
    · show us.foldl max u ∈ u :: us
      rcases foldl_max_mem u us with he | he
      · rw [he]
        exact List.mem_cons_self u us
      · exact List.mem_cons_of_mem u he
    · intro x hx
      show x ≤ us.foldl max u
      rcases List.mem_cons.mp hx with rfl | hx'
      · exact foldl_max_init_le x us
      · exact le_foldl_max u hx'

/-- Witness for C3 at a concrete two-task taskset. -/
theorem gfb_computation_witness :
    gfbUtils ex2 = ex2.filterMap (fun t =>
      match t.2.runtime, t.2.period with
      | some c, some p => if p = 0 then none else some (c / p)
      | _, _ => none) ∧
    ∃ r : GFBResult, check_gfb ex2 2 = some r ∧
      r.total_utilization = (gfbUtils ex2).sum ∧
      r.max_utilization ∈ gfbUtils ex2 ∧
      (∀ u ∈ gfbUtils ex2, u ≤ r.max_utilization) ∧
      r.bound = ((2 : ℕ) : ℚ) - (((2 : ℕ) : ℚ) - 1) * r.max_utilization ∧
      (r.is_schedulable = true ↔ r.total_utilization ≤ r.bound) :=
  gfb_computation ex2 2 (by
    norm_num [gfbUtils, gfbUtil, ex2, exA, exB, List.filterMap_cons, List.filterMap_nil]
    exact List.cons_ne_nil _ _)

/-- Claim C5: no BCL per-task result ever contains a self contribution:
the beta-detail map of task `k` has no entry keyed `k`, and `beta_sum`
is built only from those (self-free) entries. -/
theorem bcl_self_exclusion (tasks : List (String × TaskParams)) (m : ℕ) :
    ∀ r ∈ (check_bcl_schedulability tasks m).2,
      (∀ e ∈ r.2.beta_details, e.1 ≠ r.1) ∧
      r.2.beta_sum = (r.2.beta_details.map fun e => min e.2 (1 - r.2.lambda_k)).sum := by
  intro r hr
  obtain ⟨tp, c, p, d, hmem, hv, hrr⟩ := mem_check_bcl_elim hr
  rw [hrr]
  constructor
  · intro e he
    exact (mem_bclBetaDetails_elim he).1
  · rfl

/-- Witness for C5 at a concrete two-task taskset and its first result. -/
theorem bcl_self_exclusion_witness :
    (∀ e ∈ (⟨1/4, 1/2, 3/2, true, false, true, [("b", 1/2)]⟩ : BCLTaskResult).beta_details,
        e.1 ≠ ("a" : String)) ∧
    (⟨1/4, 1/2, 3/2, true, false, true, [("b", 1/2)]⟩ : BCLTaskResult).beta_sum
      = ((⟨1/4, 1/2, 3/2, true, false, true, [("b", 1/2)]⟩ : BCLTaskResult).beta_details.map
          fun e => min e.2
            (1 - (⟨1/4, 1/2, 3/2, true, false, true, [("b", 1/2)]⟩ : BCLTaskResult).lambda_k)).sum :=
  bcl_self_exclusion ex2 2 ("a", ⟨1/4, 1/2, 3/2, true, false, true, [("b", 1/2)]⟩) (by
    norm_num +decide [check_bcl_schedulability, bclCheckTask, bclBetaDetails, betaI,
      bclParams, effDeadline, ex2, exA, exB, List.filterMap_cons, List.filterMap_nil])

/-- Claim C7: with one processor, the GFB bound is exactly 1, and the
verdict is exactly `total_utilization <= 1`; the deadline-equals-period
hypothesis of the claim is stated (GFB never reads deadlines). -/
theorem gfb_uniprocessor_bound (tasks : List (String × TaskParams))
    (_hdp : ∀ t ∈ tasks, effDeadline t.2 = t.2.period)
    (hne : gfbUtils tasks ≠ []) :
    ∃ r : GFBResult, check_gfb tasks 1 = some r ∧ r.bound = 1 ∧
      (r.is_schedulable = true ↔ r.total_utilization ≤ 1) := by
  cases h : gfbUtils tasks with
  | nil => exact absurd h hne
  | cons u us =>
    have hg : check_gfb tasks 1 = some
        { total_utilization := (u :: us).sum
          max_utilization := us.foldl max u
          bound := ((1 : ℕ) : ℚ) - (((1 : ℕ) : ℚ) - 1) * us.foldl max u
          is_schedulable :=
            decide ((u :: us).sum ≤ ((1 : ℕ) : ℚ) - (((1 : ℕ) : ℚ) - 1) * us.foldl max u) } := by
      unfold check_gfb
      rw [h]
    have hb : ((1 : ℕ) : ℚ) - (((1 : ℕ) : ℚ) - 1) * us.foldl max u = 1 := by
      push_cast
      ring
    exact ⟨_, hg, hb, by simp [hb]⟩

/-- Witness for C7 at a concrete two-task uniprocessor taskset. -/
theorem gfb_uniprocessor_bound_witness :
    ∃ r : GFBResult, check_gfb ex2 1 = some r ∧ r.bound = 1 ∧
      (r.is_schedulable = true ↔ r.total_utilization ≤ 1) :=
  gfb_uniprocessor_bound ex2 (by simp [ex2, exA, exB, effDeadline]) (by
    norm_num [gfbUtils, gfbUtil, ex2, exA, exB, List.filterMap_cons, List.filterMap_nil]
    exact List.cons_ne_nil _ _)
/-- Claim C4: the combined verdict is the four-way classification
both / GFB only / BCL only / inconclusive of the two booleans, with no
"unschedulable" outcome; in particular when GFB fails but every BCL
per-task result satisfies condition1, the verdict is "BCL only". -/
theorem combined_verdict_classification (tasks : List (String × TaskParams))
    (g : GFBResult) (bclAll : Bool) (res : List (String × BCLTaskResult)) (v : Verdict)
    (h : analyze_taskset tasks = .report g bclAll res v) :
    (v = .both ↔ (g.is_schedulable = true ∧ bclAll = true)) ∧
    (v = .gfbOnly ↔ (g.is_schedulable = true ∧ bclAll = false)) ∧
    (v = .bclOnly ↔ (g.is_schedulable = false ∧ bclAll = true)) ∧
    (v = .inconclusive ↔ (g.is_schedulable = false ∧ bclAll = false)) ∧
    ((g.is_schedulable = false ∧ ∀ r ∈ res, r.2.condition1 = true) → v = .bclOnly) := by
  obtain ⟨m, hb, hv⟩ : ∃ m : ℕ, (bclAll, res) = check_bcl_schedulability tasks m ∧
      v = combinedVerdict g.is_schedulable bclAll := by
    cases tasks with
    | nil => simp [analyze_taskset] at h
    | cons t0 rest =>
      simp only [analyze_taskset] at h
      by_cases hm : t0.2.cpus.length = 0
      · rw [if_pos hm] at h
        cases h
      · rw [if_neg hm] at h
        cases hg : check_gfb (t0 :: rest) t0.2.cpus.length with
        | none => rw [hg] at h; cases h
        | some g' =>
          rw [hg] at h
          injection h with h1 h2 h3 h4
          subst h1
          subst h2
          subst h3
          subst h4
          exact ⟨t0.2.cpus.length, rfl, rfl⟩
  have hfst : bclAll = (check_bcl_schedulability tasks m).1 := congrArg Prod.fst hb
  have hsnd : res = (check_bcl_schedulability tasks m).2 := congrArg Prod.snd hb
  have himp : (g.is_schedulable = false ∧ ∀ r ∈ res, r.2.condition1 = true) →
      v = .bclOnly := by
    rintro ⟨hgf, hcond⟩
    have hba : bclAll = true := by
      rw [hfst]
      refine check_bcl_cond1_all ?_
      rw [← hsnd]
      exact hcond
    rw [hv, hgf, hba]
    rfl
  refine ⟨?_, ?_, ?_, ?_, himp⟩ <;>
    rw [hv] <;> cases g.is_schedulable <;> cases bclAll <;>
      simp [combinedVerdict]

set_option maxHeartbeats 4000000 in
/-- Witness for C4 at a concrete two-task taskset where both tests pass. -/
theorem combined_verdict_classification_witness :
    (Verdict.both = Verdict.both ↔ (true = true ∧ true = true)) ∧
    (Verdict.both = Verdict.gfbOnly ↔ (true = true ∧ true = false)) ∧
    (Verdict.both = Verdict.bclOnly ↔ (true = false ∧ true = true)) ∧
    (Verdict.both = Verdict.inconclusive ↔ (true = false ∧ true = false)) ∧
    ((true = false ∧ ∀ r ∈
        ([("a", ⟨1/4, 1/2, 3/2, true, false, true, [("b", 1/2)]⟩),
          ("b", ⟨1/3, 1/3, 4/3, true, false, true, [("a", 1/3)]⟩)] :
          List (String × BCLTaskResult)), r.2.condition1 = true) →
      Verdict.both = Verdict.bclOnly) :=
  combined_verdict_classification ex2 ⟨7/12, 1/3, 5/3, true⟩ true
    [("a", ⟨1/4, 1/2, 3/2, true, false, true, [("b", 1/2)]⟩),
     ("b", ⟨1/3, 1/3, 4/3, true, false, true, [("a", 1/3)]⟩)] .both (by
      norm_num +decide [analyze_taskset, check_gfb, gfbUtils, gfbUtil, combinedVerdict,
        check_bcl_schedulability, bclCheckTask, bclBetaDetails, betaI,
        bclParams, effDeadline, ex2, exA, exB,
        List.filterMap_cons, List.filterMap_nil])

/-- Counterexample to claim C6 as stated: a task with valid runtime and
period but an explicit zero deadline is skipped by BCL, yet GFB still
counts its utilization `1/2` in the utilization list, so removing it
changes `total_utilization`: the two analyzers do not both skip it. -/
theorem gfb_counts_zero_deadline_task :
    bclParams exBad = none ∧
    gfbUtil exBad = some (1/2) ∧
    gfbUtils exC6 = [1/2, 1/4] ∧
    gfbUtils exC6r = [1/4] ∧
    (gfbUtils exC6).sum ≠ (gfbUtils exC6r).sum := by
  norm_num +decide [bclParams, effDeadline, gfbUtil, gfbUtils,
    exBad, exOk, exC6, exC6r,
    List.filterMap_cons, List.filterMap_nil, List.sum_cons, List.sum_nil]

/-- Claim C6 (amended): a task missing runtime or period, or with zero
period, is skipped by both analyzers, and the analysis of the remaining
tasks is identical to analyzing the taskset without that task; a task
whose only defect is an explicit zero deadline is skipped by BCL alone. -/
theorem invalid_task_skip_equivalence (pre post : List (String × TaskParams))
    (n : String) (tp : TaskParams) (m : ℕ)
    (hbad : tp.runtime = none ∨ tp.period = none ∨ tp.period = some 0) :
    gfbUtils (pre ++ (n, tp) :: post) = gfbUtils (pre ++ post) ∧
    check_gfb (pre ++ (n, tp) :: post) m = check_gfb (pre ++ post) m ∧
    check_bcl_schedulability (pre ++ (n, tp) :: post) m
      = check_bcl_schedulability (pre ++ post) m :=
  ⟨gfbUtils_drop (gfbUtil_none_of_invalid hbad) pre post n,
   check_gfb_drop (gfbUtil_none_of_invalid hbad) pre post n m,
   check_bcl_drop (bclParams_none_of_invalid hbad) pre post n m⟩

/-- Witness for the amended C6: a zero-period task inserted after a valid
task changes neither analyzer's output. -/
theorem invalid_task_skip_equivalence_witness :
    gfbUtils ([("ok", exOk)] ++ ("zero", exZero) :: []) = gfbUtils ([("ok", exOk)] ++ []) ∧
    check_gfb ([("ok", exOk)] ++ ("zero", exZero) :: []) 1
      = check_gfb ([("ok", exOk)] ++ []) 1 ∧
    check_bcl_schedulability ([("ok", exOk)] ++ ("zero", exZero) :: []) 1
      = check_bcl_schedulability ([("ok", exOk)] ++ []) 1 :=
  invalid_task_skip_equivalence [("ok", exOk)] [] "zero" exZero 1
    (Or.inr (Or.inr rfl))

/-- Claim C8: when the taskset is nonempty and a CPU count is derivable
but no task passes the GFB validity filter, the analysis stops at the
distinguished no-valid-tasks outcome: no crash and no combined verdict
is produced. -/
theorem no_valid_tasks_aborts (tasks : List (String × TaskParams)) (n0 : String)
    (t0 : TaskParams) (rest : List (String × TaskParams))
    (hts : tasks = (n0, t0) :: rest) (hcpus : t0.cpus.length ≠ 0)
    (hnone : gfbUtils tasks = []) :
    analyze_taskset tasks = .noValidTasks ∧
    ∀ (g : GFBResult) (b : Bool) (res : List (String × BCLTaskResult)) (v : Verdict),
      analyze_taskset tasks ≠ .report g b res v := by
  subst hts
  have hg : check_gfb ((n0, t0) :: rest) t0.cpus.length = none := by
    unfold check_gfb
    rw [hnone]
  have h1 : analyze_taskset ((n0, t0) :: rest) = .noValidTasks := by
    simp only [analyze_taskset]
    rw [if_neg hcpus, hg]
  refine ⟨h1, fun g b res v hcontra => ?_⟩
  rw [h1] at hcontra
  cases hcontra

/-- Witness for C8: a single task with missing runtime. -/
theorem no_valid_tasks_aborts_witness :
    analyze_taskset [("x", (⟨none, some 1, none, [0]⟩ : TaskParams))] = .noValidTasks ∧
    ∀ (g : GFBResult) (b : Bool) (res : List (String × BCLTaskResult)) (v : Verdict),
      analyze_taskset [("x", (⟨none, some 1, none, [0]⟩ : TaskParams))]
        ≠ .report g b res v :=
  no_valid_tasks_aborts [("x", ⟨none, some 1, none, [0]⟩)] "x"
    ⟨none, some 1, none, [0]⟩ [] rfl (by simp)
    (by simp [gfbUtils, gfbUtil])

/-- Claim C9: when every task fails BCL's validity filters,
`check_bcl_schedulability` returns `all_schedulable = true` and an empty
result map, with no error and no warning. -/
theorem bcl_all_invalid_vacuous (tasks : List (String × TaskParams)) (m : ℕ)
    (h : ∀ t ∈ tasks, bclParams t.2 = none) :
    check_bcl_schedulability tasks m = (true, []) := by
  have hnil : (tasks.filterMap fun t =>
      match bclParams t.2 with
      | some (c, _, d) => some (t.1, bclCheckTask tasks m t.1 c d)
      | none => none) = [] := by
    rw [List.filterMap_eq_nil_iff]
    intro a ha
    rw [h a ha]
  unfold check_bcl_schedulability
  rw [hnil]
  rfl

/-- Witness for C9: one task with an explicit zero deadline. -/
theorem bcl_all_invalid_vacuous_witness :
    check_bcl_schedulability [("bad", exBad)] 3 = (true, []) :=
  bcl_all_invalid_vacuous [("bad", exBad)] 3 (by
    norm_num +decide [bclParams, effDeadline, exBad])

/-- Claim C10: a task with present runtime, positive period and an
explicit zero deadline splits the two validity filters: GFB computes and
collects its utilization `runtime / period`, while BCL excludes it both
as a task under test (no result keyed by it) and as an interfering task
(no beta-detail entry keyed by it anywhere). -/
theorem gfb_bcl_validity_disagreement (tasks : List (String × TaskParams)) (m : ℕ)
    (n : String) (tp : TaskParams) (c p : ℚ)
    (hmem : (n, tp) ∈ tasks) (hnodup : (tasks.map Prod.fst).Nodup)
    (hc : tp.runtime = some c) (hp : tp.period = some p) (hp0 : p ≠ 0)
    (hd : tp.deadline = some 0) :
    gfbUtil tp = some (c / p) ∧
    c / p ∈ gfbUtils tasks ∧
    bclParams tp = none ∧
    (∀ r ∈ (check_bcl_schedulability tasks m).2, r.1 ≠ n) ∧
    (∀ r ∈ (check_bcl_schedulability tasks m).2,
      ∀ e ∈ r.2.beta_details, e.1 ≠ n) := by
  have hg : gfbUtil tp = some (c / p) := by
    simp [gfbUtil, hc, hp, hp0]
  have hbnone : bclParams tp = none := by
    simp [bclParams, effDeadline, hc, hp, hd]
  refine ⟨hg, List.mem_filterMap.mpr ⟨(n, tp), hmem, hg⟩, hbnone, ?_, ?_⟩
  · intro r hr heq
    obtain ⟨tp2, c2, p2, d2, hmem2, hv2, hrr⟩ := mem_check_bcl_elim hr
    rw [heq] at hmem2
    rw [nodupkeys_eq hnodup hmem2 hmem] at hv2
    rw [hbnone] at hv2
    cases hv2
  · intro r hr e he heq
    obtain ⟨tp2, c2, p2, d2, hmem2, hv2, hrr⟩ := mem_check_bcl_elim hr
    rw [hrr] at he
    obtain ⟨hne, tp3, oc, op, od, hmem3, hv3, hee⟩ := mem_bclBetaDetails_elim he
    rw [heq] at hmem3
    rw [nodupkeys_eq hnodup hmem3 hmem] at hv3
    rw [hbnone] at hv3
    cases hv3

/-- Witness for C10 at a concrete taskset holding one zero-deadline task
and one valid task. -/
theorem gfb_bcl_validity_disagreement_witness :
    gfbUtil exBad = some ((1 : ℚ) / 2) ∧
    (1 : ℚ) / 2 ∈ gfbUtils exC6 ∧
    bclParams exBad = none ∧
    (∀ r ∈ (check_bcl_schedulability exC6 4).2, r.1 ≠ "bad") ∧
    (∀ r ∈ (check_bcl_schedulability exC6 4).2,
      ∀ e ∈ r.2.beta_details, e.1 ≠ "bad") :=
  gfb_bcl_validity_disagreement exC6 4 "bad" exBad 1 2 (by simp [exC6])
    (by simp [exC6]) rfl rfl (by norm_num) rfl
